import Mathlib

/-!
# Verification of the ts-to-zod CLI orchestration layer

Shallow embedding of the CLI generation pipeline of the repository:

* `src/cli/generate-steps.ts` — `prepareGeneratorConfig`, `executeCoreGeneration`,
  `validateGeneratedContent`, `writeOutputFiles`;
* the CLI command class (`TsToZod`) — `generate`, the `--all` branch of `run`,
  `runNestedGeneration` (its config construction and its batch scheduling loop)
  and `performFileDiscovery`;
* `src/cli/utils.ts` — `hasExtensions`.

External collaborators (the file system, the `path` library, the core generator,
the prettier formatter and the type-checking worker) are modelled as explicit
parameters or as simplified pure functions over '/'-separated POSIX-style path
strings, mirroring the Node `path` behaviour on the simple paths the CLI
manipulates.  Effects (file writes, worker invocations) are recorded as events
so that ordering claims can be stated.
-/

namespace TsToZodSpec

/-! ## String primitives

Structural (kernel-evaluable) equivalents of the string operations the path
model needs. -/

/-- Helper of `strSplit`: split the remaining characters at `sep`, with the
characters of the current segment accumulated in reverse. -/
def splitCharAux (sep : Char) : List Char → List Char → List String
  | [], acc => [String.mk acc.reverse]
  | c :: cs, acc =>
    if c = sep then String.mk acc.reverse :: splitCharAux sep cs []
    else splitCharAux sep cs (c :: acc)

/-- Split a string at every occurrence of a separator character
(`String.splitOn` for the single-character separators used here). -/
def strSplit (s : String) (sep : Char) : List String :=
  splitCharAux sep s.data []

/-- `String.startsWith`. -/
def strStartsWith (s p : String) : Bool :=
  p.data.isPrefixOf s.data

/-- `String.endsWith`. -/
def strEndsWith (s p : String) : Bool :=
  p.data.reverse.isPrefixOf s.data.reverse

/-! ## Simplified POSIX path model (external `path` collaborator) -/

/-- `basename`: the part of the path after the final `/`. -/
def basenameOf (p : String) : String :=
  (strSplit p '/').getLastD ""

/-- Node `path.extname` / `path.parse(..).ext`: the suffix of the basename from
its last `.`; empty for extension-less names and for dotfiles like `.bashrc`. -/
def extnameOf (p : String) : String :=
  let b := basenameOf p
  match strSplit b '.' with
  | [] => ""
  | [_] => ""
  | first :: rest =>
    if first = "" ∧ rest.length = 1 then ""
    else "." ++ rest.getLastD ""

/-- `path.join cwd rel` for an absolute `cwd` and relative `rel` (the only shape
the CLI uses): concatenation with a single separator. -/
def joinPath (a b : String) : String := a ++ "/" ++ b

/-- `path.dirname`: everything before the final `/`. -/
def dirOf (p : String) : String :=
  let parts := strSplit p '/'
  String.intercalate "/" (parts.take (parts.length - 1))

/-- Collapse `.` and `..` segments, as `path.resolve` does. -/
def collapseSegments (segs : List String) : List String :=
  segs.foldl
    (fun acc s =>
      if s = "" ∨ s = "." then acc
      else if s = ".." then acc.take (acc.length - 1)
      else acc ++ [s])
    []

/-- `path.resolve dir spec` for an absolute `dir` and a relative `spec`. -/
def resolvePath (dir spec : String) : String :=
  "/" ++ String.intercalate "/" (collapseSegments (strSplit dir '/' ++ strSplit spec '/'))

/-- `slash(path.relative(cwd, p))` for a `p` that lives under `cwd` (the shape
produced by discovery, which resolves every path against `cwd`). -/
def relPath (cwd p : String) : String :=
  if strStartsWith p (cwd ++ "/") then p.drop (cwd.length + 1) else p

/-- `p.replace(process.cwd(), "").slice(1)` as used by the generation steps. -/
def stripCwd (cwd p : String) : String :=
  if strStartsWith p cwd then (p.drop cwd.length).drop 1 else p.drop 1

/-! ## Configuration data (`src/config.ts` shapes used by the CLI) -/

/-- One entry of the input/output mapping table. -/
structure InputOutputMapping where
  input : String
  output : String
deriving DecidableEq, Repr

/-- A single file config (`Config` in `src/config.ts`); only the fields the CLI
orchestration reads.  Optional fields are `Option` to model `undefined`. -/
structure Config where
  name : Option String := none
  input : String
  output : Option String := none
  keepComments : Option Bool := none
  skipParseJSDoc : Option Bool := none
  inferredTypes : Option String := none
deriving DecidableEq, Repr

/-- CLI flags (`src/cli/statics.ts`): `keepComments` has no oclif default and is
`undefined` when not passed; `skipParseJSDoc`, `skipValidation`, `all` and
`generateNested` default to `false`; `maxDepth` defaults to 5. -/
structure Flags where
  keepComments : Option Bool := none
  skipParseJSDoc : Bool := false
  skipValidation : Bool := false
  inferredTypes : Option String := none
  all : Bool := false
  generateNested : Bool := false
  maxDepth : Nat := 5
deriving DecidableEq, Repr

/-- Positional CLI arguments. -/
structure GenerateArgs where
  input : Option String := none
  output : Option String := none
deriving DecidableEq, Repr

/-- `GenerateProps` (`src/core/generate/generate.types.ts`), restricted to the
fields the orchestration layer sets; `Option` models `undefined`. -/
structure GenerateProps where
  sourceText : String
  inputOutputMappings : List InputOutputMapping := []
  keepComments : Option Bool := none
  skipParseJSDoc : Option Bool := none
  inferredTypes : Option String := none
deriving DecidableEq, Repr

/-! ## `src/cli/utils.ts` -/

/-- `hasExtensions`: the parsed extension is in the allowed list. -/
def hasExtensions (path : String) (extensions : List String) : Bool :=
  extensions.contains (extnameOf path)

/-- `TYPESCRIPT_EXTENSIONS` (`src/cli/constants.ts` is not part of the provided
sources).  Modelled from the spec: inputs are TypeScript files, and discovery
and the extension checks accept exactly `.ts` and `.tsx`. -/
def TYPESCRIPT_EXTENSIONS : List String := [".ts", ".tsx"]

/-- `JAVASCRIPT_EXTENSIONS` (`src/cli/constants.ts` is not part of the provided
sources).  Modelled from the spec: outputs may also be emitted as transpiled
JavaScript files. -/
def JAVASCRIPT_EXTENSIONS : List String := [".js", ".cjs", ".mjs"]

/-! ## `src/cli/generate-steps.ts` -/

/-- `CoreGenerationResult`: the renderers are opaque functions supplied by the
core generator (an external collaborator of this layer). -/
structure CoreGenerationResult where
  errors : List String
  transformedSourceText : String
  getZodSchemasFile : String → String
  getIntegrationTestFile : String → String → String
  getInferredTypes : String → String
  hasCircularDependencies : Bool

/-- The payload handed to `worker.validateGeneratedTypesInWorker`. -/
structure WorkerPayload where
  sourceTypesText : String
  sourceTypesPath : String
  integrationTestsText : String
  integrationTestsPath : String
  zodSchemasText : String
  zodSchemasPath : String
  skipParseJSDoc : Bool
  extraFiles : List (String × String)

/-- The external collaborators `generate` threads through the steps: the current
working directory, the file system, the core generator, the path-import helper
`getImportPath` (from `src/utils/getImportPath.ts`, outside the provided
sources, kept opaque) and the type-checking worker. -/
structure Collaborators where
  cwd : String
  fs : String → Option String
  core : GenerateProps → CoreGenerationResult
  getImportPath : String → String → String
  workerErrors : WorkerPayload → List String

/-- Data produced by a successful `prepareGeneratorConfig`. -/
structure PrepareData where
  inputPath : String
  outputPath : String
  generateOptions : GenerateProps
deriving DecidableEq, Repr

/-- Result of awaiting `prepareGeneratorConfig`: `ok`/`failure` are the
structured `{ success: true/false }` values the source returns, while `thrown`
models an exception escaping the `await` — the source's
`await readFile(inputPath, "utf-8")` has no try/catch, so a missing input file
rejects the promise instead of producing a structured failure. -/
inductive PrepareResult where
  | ok (data : PrepareData)
  | failure (error : String)
  | thrown (message : String)
deriving DecidableEq, Repr

/-- `prepareGeneratorConfig`: resolves input/output paths, checks extensions,
reads the source file and assembles the `GenerateProps`.  A `readFile`
rejection is a `thrown` exception, not a structured failure. -/
def prepareGeneratorConfig (c : Collaborators) (args : GenerateArgs)
    (fileConfig : Option Config) (cliFlags : Flags)
    (globalIoMappings : List InputOutputMapping) : PrepareResult :=
  let input? : Option String := match args.input with
    | some i => some i
    | none => fileConfig.map (·.input)
  match input? with
  | none =>
    .failure "Missing 1 required arg:\ninput file (typescript)\nSee more help with --help"
  | some input =>
    let output? : Option String := match args.output with
      | some o => some o
      | none => fileConfig.bind (·.output)
    let inputPath := joinPath c.cwd input
    let outputPath := joinPath c.cwd (output?.getD input)
    let extErrors : List (String × List String) :=
      (if !hasExtensions input TYPESCRIPT_EXTENSIONS then
        [(input, TYPESCRIPT_EXTENSIONS)] else []) ++
      (match output? with
       | some output =>
         if !hasExtensions output (TYPESCRIPT_EXTENSIONS ++ JAVASCRIPT_EXTENSIONS) then
           [(output, TYPESCRIPT_EXTENSIONS ++ JAVASCRIPT_EXTENSIONS)] else []
       | none => [])
    if extErrors.length ≠ 0 then
      .failure ("Unexpected file extension:\n" ++
        String.intercalate "\n"
          (extErrors.map (fun e =>
            "\"" ++ e.1 ++ "\" must be " ++
              String.intercalate ", " (e.2.map (fun i => "\"" ++ i ++ "\"")))))
    else
      match c.fs inputPath with
      | none => .thrown ("ENOENT: no such file or directory, open " ++ inputPath)
      | some sourceText =>
        let relativeIoMappings := globalIoMappings.map (fun io =>
          { input := c.getImportPath inputPath io.input
            output := c.getImportPath outputPath io.output : InputOutputMapping })
        let base : GenerateProps :=
          { sourceText := sourceText
            inputOutputMappings := relativeIoMappings
            keepComments := fileConfig.bind (·.keepComments)
            skipParseJSDoc := fileConfig.bind (·.skipParseJSDoc)
            inferredTypes := fileConfig.bind (·.inferredTypes) }
        let withKC := match cliFlags.keepComments with
          | some b => { base with keepComments := some b }
          | none => base
        let withSkip := { withKC with skipParseJSDoc := some cliFlags.skipParseJSDoc }
        let generateOptions := match cliFlags.inferredTypes with
          | some p => { withSkip with inferredTypes := some p }
          | none => withSkip
        .ok { inputPath := inputPath, outputPath := outputPath
              generateOptions := generateOptions }

/-- `executeCoreGeneration`: runs the core generator and fails when the result
has circular dependencies but no explicit output path was provided. -/
def executeCoreGeneration (core : GenerateProps → CoreGenerationResult)
    (generateOptions : GenerateProps) (outputProvided : Bool) :
    Except String CoreGenerationResult :=
  let coreResult := core generateOptions
  if coreResult.hasCircularDependencies ∧ !outputProvided then
    .error "--output= must also be provided when input files have some circular dependencies"
  else
    .ok coreResult

/-- Modelled from the spec: `areImportPathsEqualIgnoringExtension` lives in
`src/utils/getImportPath.ts`, which is not part of the provided sources.  The
spec states that two paths are "equal ignoring extension" when they coincide
after their trailing extensions are removed. -/
def areImportPathsEqualIgnoringExtension (p1 p2 : String) : Bool :=
  p1.dropRight (extnameOf p1).length = p2.dropRight (extnameOf p2).length

/-- The fake-output substitution at the start of `validateGeneratedContent`:
when output and input denote the same logical file, validation uses
`source.zod.ts` next to the input file instead of the real output path. -/
def computeOutputForValidation (cwd inputPath outputPath : String) : String :=
  let input := stripCwd cwd inputPath
  let output := stripCwd cwd outputPath
  if outputPath = inputPath ∨ areImportPathsEqualIgnoringExtension input output then
    joinPath (dirOf inputPath) "source.zod.ts"
  else
    outputPath

/-- `validateGeneratedContent`: loads the extra mapping files, substitutes the
fake output path when needed, builds the worker payload and interprets the
worker's error list.  Returns the payload alongside the result so that the
worker invocation is observable. -/
def validateGeneratedContent (c : Collaborators) (inputPath outputPath : String)
    (coreGenResultData : CoreGenerationResult) (generateOptions : GenerateProps)
    (globalIoMappings : List InputOutputMapping) :
    WorkerPayload × Except String Unit :=
  let extraFiles := globalIoMappings.foldl
    (fun acc io =>
      if c.getImportPath inputPath io.input ≠ "/" then
        let acc1 := match c.fs (joinPath c.cwd io.input) with
          | some text => acc ++ [(text, io.input)]
          | none => acc
        match c.fs (joinPath c.cwd io.output) with
        | some text => acc1 ++ [(text, io.output)]
        | none => acc1
      else acc)
    []
  let input := stripCwd c.cwd inputPath
  let outputForValidation := computeOutputForValidation c.cwd inputPath outputPath
  let payload : WorkerPayload :=
    { sourceTypesText := coreGenResultData.transformedSourceText
      sourceTypesPath := input
      integrationTestsText := coreGenResultData.getIntegrationTestFile
        (c.getImportPath "./source.integration.ts" input)
        (c.getImportPath "./source.integration.ts" outputForValidation)
      integrationTestsPath := "./source.integration.ts"
      zodSchemasText := coreGenResultData.getZodSchemasFile
        (c.getImportPath outputForValidation input)
      zodSchemasPath := stripCwd c.cwd outputForValidation
      skipParseJSDoc := (generateOptions.skipParseJSDoc.getD false)
      extraFiles := extraFiles }
  let validationErrors := c.workerErrors payload
  if validationErrors.length > 0 then
    (payload, .error (String.intercalate "\n" validationErrors))
  else
    (payload, .ok ())

/-- Observable effects of one `generate` call, in order. -/
inductive Event where
  | validated
  | wroteFile (path : String)
deriving DecidableEq, Repr

/-- `writeOutputFiles`: writes the inferred-types file when requested, then the
zod schemas file at the output path (formatting is the external prettier
collaborator and is not modelled). -/
def writeOutputFiles (outputPath : String) (_inputPath : String)
    (_coreGenResultData : CoreGenerationResult) (generateOptions : GenerateProps) :
    List Event :=
  (match generateOptions.inferredTypes with
   | some p => [Event.wroteFile p]
   | none => []) ++ [Event.wroteFile outputPath]

/-! ## `TsToZod.generate` (the single-file generation pipeline) -/

/-- Outcome of one `generate` call. -/
inductive GenOutcome where
  | success
  | failure (error : String)
deriving DecidableEq, Repr

namespace TsToZod

/-- `TsToZod.generate`: prepare → core generation (with the circular-dependency
output check) → optional validation → write.  `.ok (outcome, events)` is the
resolved promise — the structured result plus the recorded worker invocation
and file writes, in order; `.error msg` is an exception propagating out of the
call (a `prepareGeneratorConfig` rejection re-thrown by the `await`). -/
def generate (c : Collaborators) (args : GenerateArgs)
    (fileConfig : Option Config) (cliFlags : Flags)
    (inputOutputMappings : List InputOutputMapping) :
    Except String (GenOutcome × List Event) :=
  match prepareGeneratorConfig c args fileConfig cliFlags inputOutputMappings with
  | .thrown msg => .error msg
  | .failure e => .ok (.failure e, [])
  | .ok pd =>
    let outputProvided := args.output.isSome || (fileConfig.bind (·.output)).isSome
    match executeCoreGeneration c.core pd.generateOptions outputProvided with
    | .error e => .ok (.failure e, [])
    | .ok coreGenerationData =>
      -- `coreGenerationData.errors` are surfaced as warnings; non-fatal.
      if cliFlags.skipValidation then
        .ok (.success,
          writeOutputFiles pd.outputPath pd.inputPath coreGenerationData pd.generateOptions)
      else
        match (validateGeneratedContent c pd.inputPath pd.outputPath
            coreGenerationData pd.generateOptions inputOutputMappings).2 with
        | .error e => .ok (.failure e, [Event.validated])
        | .ok _ =>
          .ok (.success,
            Event.validated ::
              writeOutputFiles pd.outputPath pd.inputPath coreGenerationData
                pd.generateOptions)

/-! ## The `--all` branch of `TsToZod.run` -/

/-- What the CLI reports for one config of a multi-config run: either the
success log line or the config's error, reported with `exit: false` (the run
continues). -/
inductive ConfigReport where
  | generated (name : Option String)
  | reportedError (name : Option String) (error : String)
deriving Repr

/-- How the `--all` branch reports one resolved generation: the success log
line, or the config's error via `this.error(result.error, { exit: false })`
(which does not terminate the run). -/
def reportOf (config : Config) (outcome : GenOutcome) : ConfigReport :=
  match outcome with
  | .success => ConfigReport.generated config.name
  | .failure e => ConfigReport.reportedError config.name e

/-- The `Promise.all` over the configs of the `--all` branch, modelled
sequentially in array order (as `runBatch` models the nested batches): each
resolved generation contributes its report; a generation whose promise rejects
(e.g. an unreadable input file) rejects the whole `Promise.all`, and the
surrounding catch calls `this.error(error)` without `exit: false`, terminating
the entire run — modelled as the `.error` result. -/
def runAllConfigsAux (c : Collaborators) (args : GenerateArgs)
    (cliFlags : Flags) (ioMappings : List InputOutputMapping) :
    List Config → Except String (List ConfigReport)
  | [] => .ok []
  | config :: rest =>
    match generate c args (some config) cliFlags ioMappings with
    | .error msg => .error msg
    | .ok r =>
      match runAllConfigsAux c args cliFlags ioMappings rest with
      | .error msg => .error msg
      | .ok reports => .ok (reportOf config r.1 :: reports)

/-- The body of the `Array.isArray(fileConfig)` branch of `TsToZod.run`: after
the argument guard, every config is generated and its resolved outcome
reported independently, while an exception from any config's generation
terminates the whole run. -/
def runAllConfigs (c : Collaborators) (args : GenerateArgs) (cliFlags : Flags)
    (fileConfigs : List Config) (ioMappings : List InputOutputMapping) :
    Except String (List ConfigReport) :=
  if args.input.isSome || args.output.isSome then
    .error "INPUT and OUTPUT arguments are not compatible with --all"
  else
    runAllConfigsAux c args cliFlags ioMappings fileConfigs

end TsToZod

/-! ## Nested file discovery (`TsToZod.performFileDiscovery`) -/

/-- A source file as discovery sees it: the string-literal module specifiers of
its import declarations, in source order (non-import statements and non-literal
specifiers are invisible to the `forEachChild` scan). -/
structure SourceFileModel where
  imports : List String
deriving Repr

/-- The file system as discovery sees it: the set of existing files.
`existsSync` is true exactly for the recorded paths. -/
structure FileSystem where
  files : List (String × SourceFileModel)

/-- `readFile`: the contents of an existing file. -/
def FileSystem.read (fs : FileSystem) (p : String) : Option SourceFileModel :=
  fs.files.lookup p

/-- `existsSync`. -/
def FileSystem.existsSync (fs : FileSystem) (p : String) : Bool :=
  (fs.read p).isSome

/-- The value stored in `discoveredFileInfos` for one file. -/
structure FileInfo where
  relativePath : String
  localImportAbsPaths : List String
deriving DecidableEq, Repr

/-- `discoveredFileInfos`: an insertion-ordered map keyed by absolute path. -/
abbrev DiscMap := List (String × FileInfo)

/-- `discoveredFileInfos.has`. -/
def containsKey (m : DiscMap) (k : String) : Bool :=
  m.any (fun e => e.1 == k)

/-- Observable effects of discovery: a successful `readFile`, the max-depth
warning naming the truncated path, and the unreadable-file warning. -/
inductive DiscEvent where
  | readFile (path : String)
  | warnDepth (path : String)
  | warnUnreadable (path : String)
deriving DecidableEq, Repr

/-- The successfully read paths of an event trace, in order. -/
def readPaths (evs : List DiscEvent) : List String :=
  evs.filterMap (fun e => match e with | .readFile p => some p | _ => none)

/-- Import resolution: `resolve(dirname(file), spec)`, then when the result has
no extension try appending `.ts`, then `.tsx`, keeping the bare path if neither
exists. -/
def resolveImport (fs : FileSystem) (absoluteFilePath importPath : String) : String :=
  let resolved := resolvePath (dirOf absoluteFilePath) importPath
  if extnameOf resolved = "" then
    if fs.existsSync (resolved ++ ".ts") then resolved ++ ".ts"
    else if fs.existsSync (resolved ++ ".tsx") then resolved ++ ".tsx"
    else resolved
  else resolved

/-- One import declaration of the `forEachChild` scan: `some resolved` when the
specifier is relative and resolves to an existing `.ts`/`.tsx` file (an edge is
recorded), `none` when the import is skipped. -/
def processImport (fs : FileSystem) (absoluteFilePath importPath : String) :
    Option String :=
  if strStartsWith importPath "./" || strStartsWith importPath "../" then
    let resolved := resolveImport fs absoluteFilePath importPath
    if fs.existsSync resolved && (strEndsWith resolved ".ts" || strEndsWith resolved ".tsx")
    then some resolved
    else none
  else none

/-- The whole `forEachChild` scan of one file: returns the accumulated
`localImportAbsPaths` set (first-occurrence order, duplicates collapsed by the
`Set`) and `localImportsToExploreRecursively` (imports not in the map at scan
time; may contain duplicates, as in the source).  `isDiscovered` is the key set
of `discoveredFileInfos` at scan time, which already contains the current
file. -/
def scanStep (fs : FileSystem) (isDiscovered : String → Bool)
    (absoluteFilePath : String) (acc : List String × List String)
    (spec : String) : List String × List String :=
  match processImport fs absoluteFilePath spec with
  | some resolved =>
    (if acc.1.contains resolved then acc.1 else acc.1 ++ [resolved],
     if isDiscovered resolved then acc.2 else acc.2 ++ [resolved])
  | none => acc

/-- The whole scan: fold `scanStep` over the file's import specifiers. -/
def scanImports (fs : FileSystem) (isDiscovered : String → Bool)
    (absoluteFilePath : String) (imports : List String) :
    List String × List String :=
  imports.foldl (scanStep fs isDiscovered absoluteFilePath) ([], [])

/-- lodash `uniq`: deduplicate keeping the first occurrence. -/
def uniqList (l : List String) : List String :=
  l.foldl (fun acc x => if acc.contains x then acc else acc ++ [x]) []

/-- Recursion core of `performFileDiscovery`.  The source recursion is bounded
by the depth check; `fuel` makes that bound structural and the wrapper supplies
`maxDepth + 1 - currentDepth`, so the `fuel = 0` branch below is unreachable
(it would require `currentDepth ≤ maxDepth` with zero remaining budget).
A file is recorded in the map before its imports are scanned (the source sets
the map entry and then mutates its `localImportAbsPaths` set while scanning;
here the scan is computed against the extended key set and the finished entry
is appended). -/
def performFileDiscoveryAux (fs : FileSystem) (cwd : String) (maxDepth : Nat) :
    Nat → String → Nat → DiscMap → DiscMap × List DiscEvent
  | fuel, absoluteFilePath, currentDepth, m =>
    if currentDepth > maxDepth then
      (m, [DiscEvent.warnDepth absoluteFilePath])
    else if containsKey m absoluteFilePath then
      (m, [])
    else
      match fuel with
      | 0 => (m, [])
      | fuel + 1 =>
        match fs.read absoluteFilePath with
        | none => (m, [DiscEvent.warnUnreadable absoluteFilePath])
        | some file =>
          let relativeFilePath := relPath cwd absoluteFilePath
          let scanned := scanImports fs
            (fun p => p == absoluteFilePath || containsKey m p)
            absoluteFilePath file.imports
          let m2 := m ++ [(absoluteFilePath,
            { relativePath := relativeFilePath
              localImportAbsPaths := scanned.1 })]
          (uniqList scanned.2).foldl
            (fun st p =>
              let next := performFileDiscoveryAux fs cwd maxDepth fuel p
                (currentDepth + 1) st.1
              (next.1, st.2 ++ next.2))
            (m2, [DiscEvent.readFile absoluteFilePath])

/-- `TsToZod.performFileDiscovery`, with the map and the warning/read trace made
explicit. -/
def performFileDiscovery (fs : FileSystem) (cwd : String)
    (absoluteFilePath : String) (m : DiscMap) (maxDepth currentDepth : Nat) :
    DiscMap × List DiscEvent :=
  performFileDiscoveryAux fs cwd maxDepth (maxDepth + 1 - currentDepth)
    absoluteFilePath currentDepth m

/-! ## Nested generation (`TsToZod.runNestedGeneration`) -/

/-- `DiscoveredConfigForNestedGeneration`. -/
structure DiscoveredConfigForNestedGeneration where
  id : String
  config : Config
  dependencies : List String
deriving DecidableEq, Repr

/-- `relativePath.replace(/\.tsx?$/, ".zod.ts")`: the anchored regex replaces a
trailing `.tsx` (preferred, the `x?` being greedy) or `.ts`. -/
def replaceTsSuffix (s : String) : String :=
  if strEndsWith s ".tsx" then s.dropRight 4 ++ ".zod.ts"
  else if strEndsWith s ".ts" then s.dropRight 3 ++ ".zod.ts"
  else s

/-- Step 2 of `runNestedGeneration`: build the per-file configs, restricting
each file's dependencies to imports that are themselves in the discovered set
(`inferredTypes` propagation is commented out in the source). -/
def buildConfigsForGeneration (discoveredFileInfos : DiscMap) (cliFlags : Flags) :
    List DiscoveredConfigForNestedGeneration :=
  discoveredFileInfos.map (fun entry =>
    { id := entry.1
      config :=
        { input := entry.2.relativePath
          output := some (replaceTsSuffix entry.2.relativePath)
          keepComments := some (cliFlags.keepComments.getD false)
          skipParseJSDoc := some cliFlags.skipParseJSDoc }
      dependencies := entry.2.localImportAbsPaths.filter
        (fun importedAbsPath => containsKey discoveredFileInfos importedAbsPath) })

/-- `Array.from(item.dependencies).every(depId => generatedConfigIds.has(depId))`. -/
def ready (generatedConfigIds : List String)
    (item : DiscoveredConfigForNestedGeneration) : Bool :=
  item.dependencies.all (fun depId => generatedConfigIds.contains depId)

/-- `generationQueue.filter(...)`: the batch of all remaining items whose every
dependency has already completed generation. -/
def nextBatch (generatedConfigIds : List String)
    (generationQueue : List DiscoveredConfigForNestedGeneration) :
    List DiscoveredConfigForNestedGeneration :=
  generationQueue.filter (ready generatedConfigIds)

/-- One batch of generation calls.  `genResult` abstracts the per-item
`this.generate` call (`none` = success).  `Promise.all` is modelled
sequentially in array order: successes append their id to
`generatedConfigIds`; the first failure aborts with the wrapped message and
the ids accumulated so far. -/
def runBatch (genResult : DiscoveredConfigForNestedGeneration → Option String) :
    List DiscoveredConfigForNestedGeneration → List String →
    Except (String × List String) (List String)
  | [], generatedConfigIds => .ok generatedConfigIds
  | item :: rest, generatedConfigIds =>
    match genResult item with
    | none => runBatch genResult rest (generatedConfigIds ++ [item.id])
    | some error =>
      .error ("Error generating for " ++ item.config.input ++ ": " ++ error,
        generatedConfigIds)

/-- Result of the scheduling loop: on success, the executed batches in order,
the generated ids and `totalGeneratedCount`; on failure (deadlock or batch
error), the fatal message together with the state that is kept — previously
generated files are not rolled back. -/
inductive NestedOutcome where
  | success (batches : List (List DiscoveredConfigForNestedGeneration))
      (generatedConfigIds : List String) (totalGeneratedCount : Nat)
  | failure (message : String) (generatedConfigIds : List String)
      (batches : List (List DiscoveredConfigForNestedGeneration))
deriving DecidableEq, Repr

/-- Recursion core of the `while (generationQueue.length > 0)` loop of
`runNestedGeneration`.  Every successful iteration removes the non-empty batch
from the queue, so the wrapper's `fuel = queue.length` makes the `fuel = 0`
branch below unreachable (reaching it would need a non-empty batch drawn from
a queue shorter than its own batch). -/
def runNestedGenerationLoopAux
    (genResult : DiscoveredConfigForNestedGeneration → Option String) :
    Nat → List String → List DiscoveredConfigForNestedGeneration →
    List (List DiscoveredConfigForNestedGeneration) → Nat → NestedOutcome
  | fuel, generatedConfigIds, generationQueue, accBatches, totalGeneratedCount =>
    match generationQueue with
    | [] => .success accBatches generatedConfigIds totalGeneratedCount
    | q0 :: qrest =>
      let generationQueue := q0 :: qrest
      let batchToGenerate := nextBatch generatedConfigIds generationQueue
      if batchToGenerate.isEmpty then
        .failure
          ("Could not determine generation order. Possible circular dependency or missing files among: "
            ++ String.intercalate ", "
                (generationQueue.map (fun item => item.config.input))
            ++ ". Please check your imports.")
          generatedConfigIds accBatches
      else
        match fuel with
        | 0 => .failure "" generatedConfigIds accBatches
        | fuel + 1 =>
          match runBatch genResult batchToGenerate generatedConfigIds with
          | .error e =>
            .failure ("Error during batch generation: " ++ e.1) e.2
              (accBatches ++ [batchToGenerate])
          | .ok generatedConfigIds' =>
            runNestedGenerationLoopAux genResult fuel generatedConfigIds'
              (generationQueue.filter (fun item =>
                !(batchToGenerate.any (fun b => b.id == item.id))))
              (accBatches ++ [batchToGenerate])
              (totalGeneratedCount + batchToGenerate.length)

/-- The scheduling loop of `runNestedGeneration`, started on the full config
list with nothing generated yet. -/
def runNestedGenerationLoop
    (genResult : DiscoveredConfigForNestedGeneration → Option String)
    (allConfigsToGenerate : List DiscoveredConfigForNestedGeneration) :
    NestedOutcome :=
  runNestedGenerationLoopAux genResult allConfigsToGenerate.length []
    allConfigsToGenerate [] 0

/-! ## Concrete instances used by the witnesses -/

/-- A core generator result with trivial renderers, parameterized by the
circular-dependency flag. -/
def trivialCoreResult (circular : Bool) : CoreGenerationResult :=
  { errors := []
    transformedSourceText := "export type A = string;"
    getZodSchemasFile := fun _ => "export const aSchema = z.string();"
    getIntegrationTestFile := fun _ _ => "export type SpecA = z.infer<typeof aSchema>;"
    getInferredTypes := fun _ => "export type A = z.infer<typeof aSchema>;"
    hasCircularDependencies := circular }

/-- Collaborators whose core generator reports a circular dependency. -/
def circularCollaborators : Collaborators :=
  { cwd := "/proj"
    fs := fun p => if p = "/proj/types.ts" then some "export type A = string;" else none
    core := fun _ => trivialCoreResult true
    getImportPath := fun _ _ => "./types"
    workerErrors := fun _ => [] }

/-- Collaborators whose core generator succeeds without circular dependencies
and whose worker reports no validation error. -/
def plainCollaborators : Collaborators :=
  { cwd := "/proj"
    fs := fun p => if p = "/proj/types.ts" then some "export type A = string;" else none
    core := fun _ => trivialCoreResult false
    getImportPath := fun _ _ => "./types"
    workerErrors := fun _ => [] }

/-! ## Claim theorems -/

/-- **C1.** For every single-file generation call whose core generation result
has `hasCircularDependencies = true` and for which no output path was supplied
(neither as a CLI argument nor in the file config), `generate` returns a
failure whose message instructs the caller to provide `--output=`, and the
failure is returned with an empty event trace — before the validation step
runs and before any output file is written for that target. -/
theorem circularWithoutOutputFailsBeforeValidationAndWrites
    (c : Collaborators) (args : GenerateArgs) (fileConfig : Option Config)
    (cliFlags : Flags) (io : List InputOutputMapping) (pd : PrepareData)
    (hprep : prepareGeneratorConfig c args fileConfig cliFlags io = .ok pd)
    (hcirc : (c.core pd.generateOptions).hasCircularDependencies = true)
    (hargs : args.output = none)
    (hcfg : fileConfig.bind Config.output = none) :
    TsToZod.generate c args fileConfig cliFlags io =
      .ok (.failure "--output= must also be provided when input files have some circular dependencies",
        []) := by
  unfold TsToZod.generate
  rw [hprep]
  simp only [executeCoreGeneration, hargs, hcfg, Option.isSome_none, Bool.or_self, hcirc]
  simp

/-- Witness for C1: a concrete call (input `types.ts`, no output anywhere, core
result circular) fails with the `--output=` message and no events. -/
theorem circularWithoutOutputFailsBeforeValidationAndWrites_witness :
    TsToZod.generate circularCollaborators { input := some "types.ts" } none {} [] =
      .ok (.failure "--output= must also be provided when input files have some circular dependencies",
        []) :=
  circularWithoutOutputFailsBeforeValidationAndWrites circularCollaborators
    { input := some "types.ts" } none {} []
    { inputPath := "/proj/types.ts"
      outputPath := "/proj/types.ts"
      generateOptions :=
        { sourceText := "export type A = string;"
          inputOutputMappings := []
          keepComments := none
          skipParseJSDoc := some false
          inferredTypes := none } }
    rfl rfl rfl rfl

/-- The zod schemas file is always written at the output path. -/
lemma wroteFile_output_mem (outputPath inputPath : String)
    (coreData : CoreGenerationResult) (opts : GenerateProps) :
    Event.wroteFile outputPath ∈ writeOutputFiles outputPath inputPath coreData opts := by
  unfold writeOutputFiles
  cases opts.inferredTypes <;> simp

/-- When neither the CLI argument nor the config provides an output, a
successful `prepareGeneratorConfig` resolves the output path to the input
path. -/
lemma prepare_default_output (c : Collaborators) (args : GenerateArgs)
    (fileConfig : Option Config) (cliFlags : Flags)
    (io : List InputOutputMapping) (pd : PrepareData)
    (hout : args.output = none) (hcfg : fileConfig.bind (·.output) = none)
    (hprep : prepareGeneratorConfig c args fileConfig cliFlags io = .ok pd) :
    pd.outputPath = pd.inputPath := by
  unfold prepareGeneratorConfig at hprep
  rw [hout, hcfg] at hprep
  simp only [Option.getD_none] at hprep
  repeat'
    first
      | (cases hprep; rfl)
      | (simp at hprep; done)
      | split at hprep

/-- **C9.** When neither the CLI output argument nor the config output field is
set, the output path defaults to the input path, so a successful generation's
event trace contains a write of the rendered schema file at the original input
path. -/
theorem defaultOutputOverwritesInput (c : Collaborators) (args : GenerateArgs)
    (fileConfig : Option Config) (cliFlags : Flags)
    (io : List InputOutputMapping) (pd : PrepareData) (evs : List Event)
    (hout : args.output = none)
    (hcfg : fileConfig.bind (·.output) = none)
    (hprep : prepareGeneratorConfig c args fileConfig cliFlags io = .ok pd)
    (hgen : TsToZod.generate c args fileConfig cliFlags io = .ok (.success, evs)) :
    pd.outputPath = pd.inputPath ∧ Event.wroteFile pd.inputPath ∈ evs := by
  have heq := prepare_default_output c args fileConfig cliFlags io pd hout hcfg hprep
  refine ⟨heq, ?_⟩
  unfold TsToZod.generate at hgen
  rw [hprep] at hgen
  rcases hexec : executeCoreGeneration c.core pd.generateOptions
      (args.output.isSome || (fileConfig.bind (·.output)).isSome) with e | coreData
  · simp only [hexec] at hgen
    simp at hgen
  · simp only [hexec] at hgen
    by_cases hskip : cliFlags.skipValidation = true
    · rw [if_pos hskip] at hgen
      have hevs : writeOutputFiles pd.outputPath pd.inputPath coreData pd.generateOptions = evs := by
        simpa using hgen
      rw [← hevs, heq]
      exact wroteFile_output_mem pd.inputPath pd.inputPath _ _
    · rw [if_neg hskip] at hgen
      rcases hval : (validateGeneratedContent c pd.inputPath pd.outputPath coreData
          pd.generateOptions io).2 with e | u
      · rw [hval] at hgen
        simp at hgen
      · rw [hval] at hgen
        have hevs : Event.validated ::
            writeOutputFiles pd.outputPath pd.inputPath coreData pd.generateOptions = evs := by
          simpa using hgen
        rw [← hevs, heq]
        exact List.mem_cons_of_mem _ (wroteFile_output_mem pd.inputPath pd.inputPath _ _)

/-- Witness for C9: with no output argument and no config, the successful run
writes over `/proj/types.ts`, the input file itself. -/
theorem defaultOutputOverwritesInput_witness :
    "/proj/types.ts" = "/proj/types.ts" ∧
      Event.wroteFile "/proj/types.ts" ∈
        [Event.validated, Event.wroteFile "/proj/types.ts"] :=
  defaultOutputOverwritesInput plainCollaborators { input := some "types.ts" } none {} []
    { inputPath := "/proj/types.ts"
      outputPath := "/proj/types.ts"
      generateOptions :=
        { sourceText := "export type A = string;"
          inputOutputMappings := []
          keepComments := none
          skipParseJSDoc := some false
          inferredTypes := none } }
    [Event.validated, Event.wroteFile "/proj/types.ts"]
    rfl rfl rfl rfl

/-- The §8 scenario-6 file system: a seed importing two siblings, each
importing a shared dependency first reachable only at depth 2. -/
def depth2Fs : FileSystem :=
  ⟨[("/proj/seed.ts", ⟨["./a", "./b"]⟩),
    ("/proj/a.ts", ⟨["./shared"]⟩),
    ("/proj/b.ts", ⟨["./shared"]⟩),
    ("/proj/shared.ts", ⟨[]⟩)]⟩

/-- **C5.** A recursive discovery call whose current depth exceeds `maxDepth`
records nothing, explores no imports, and emits only the warning naming the
truncated path; consequently, with `maxDepth = 1` the depth-2 shared dependency
of the scenario file system is not in the generation set and a truncation
warning names it. -/
theorem maxDepthBoundsDiscovery :
    (∀ (fs : FileSystem) (cwd absoluteFilePath : String) (m : DiscMap)
        (maxDepth currentDepth : Nat), currentDepth > maxDepth →
        performFileDiscovery fs cwd absoluteFilePath m maxDepth currentDepth =
          (m, [DiscEvent.warnDepth absoluteFilePath]))
    ∧ containsKey (performFileDiscovery depth2Fs "/proj" "/proj/seed.ts" [] 1 0).1
        "/proj/shared.ts" = false
    ∧ DiscEvent.warnDepth "/proj/shared.ts" ∈
        (performFileDiscovery depth2Fs "/proj" "/proj/seed.ts" [] 1 0).2 := by
  refine ⟨?_, by decide, by decide⟩
  intro fs cwd p m maxDepth currentDepth h
  unfold performFileDiscovery performFileDiscoveryAux
  simp [h]

/-- Witness for C5: a concrete truncated call at depth 2 with `maxDepth = 1`
returns the unchanged empty map and the warning naming the path. -/
theorem maxDepthBoundsDiscovery_witness :
    performFileDiscovery depth2Fs "/proj" "/proj/shared.ts" [] 1 2 =
      ([], [DiscEvent.warnDepth "/proj/shared.ts"]) :=
  maxDepthBoundsDiscovery.1 depth2Fs "/proj" "/proj/shared.ts" [] 1 2 (by decide)

/-- Membership in the accumulated edge set of the import scan. -/
lemma scanStep_fold_mem (fs : FileSystem) (isD : String → Bool) (file : String)
    (imports : List String) : ∀ (acc : List String × List String) (r : String),
    r ∈ (imports.foldl (scanStep fs isD file) acc).1 ↔
      r ∈ acc.1 ∨ ∃ spec ∈ imports, processImport fs file spec = some r := by
  induction imports with
  | nil => intro acc r; simp
  | cons spec rest ih =>
    intro acc r
    rw [List.foldl_cons, ih]
    unfold scanStep
    cases hp : processImport fs file spec with
    | none =>
      simp only [List.mem_cons]
      constructor
      · rintro (h | h)
        · exact Or.inl h
        · exact Or.inr ⟨h.choose, Or.inr h.choose_spec.1, h.choose_spec.2⟩
      · rintro (h | ⟨s, hs | hs, h2⟩)
        · exact Or.inl h
        · exact Or.inl (by rw [hs] at h2; rw [h2] at hp; cases hp)
        · exact Or.inr ⟨s, hs, h2⟩
    | some r' =>
      by_cases hc : acc.1.contains r' = true
      · simp only [hc, if_true]
        constructor
        · rintro (h | h)
          · exact Or.inl h
          · exact Or.inr ⟨h.choose, List.mem_cons_of_mem _ h.choose_spec.1, h.choose_spec.2⟩
        · rintro (h | ⟨s, hs, h2⟩)
          · exact Or.inl h
          · rcases List.mem_cons.mp hs with hs | hs
            · rw [hs] at h2; rw [h2] at hp
              cases hp
              exact Or.inl (List.mem_of_elem_eq_true hc)
            · exact Or.inr ⟨s, hs, h2⟩
      · simp only [hc, if_false, Bool.false_eq_true]
        constructor
        · rintro (h | h)
          · rcases List.mem_append.mp h with h | h
            · exact Or.inl h
            · rcases List.mem_singleton.mp h with rfl
              exact Or.inr ⟨spec, List.mem_cons_self _ _, hp⟩
          · exact Or.inr ⟨h.choose, List.mem_cons_of_mem _ h.choose_spec.1, h.choose_spec.2⟩
        · rintro (h | ⟨s, hs, h2⟩)
          · exact Or.inl (List.mem_append_left _ h)
          · rcases List.mem_cons.mp hs with hs | hs
            · rw [hs] at h2; rw [h2] at hp
              cases hp
              exact Or.inl (List.mem_append_right _ (List.mem_singleton_self _))
            · exact Or.inr ⟨s, hs, h2⟩

/-- **C6.** An import is recorded as a local dependency edge exactly when its
specifier begins with `./` or `../` and resolves (directly, or by appending
`.ts`/`.tsx` when extension-less) to an existing file whose path ends in `.ts`
or `.tsx`; every other import declaration creates no edge. -/
theorem localImportEdgeCriterion :
    (∀ (fs : FileSystem) (absoluteFilePath importPath resolved : String),
      processImport fs absoluteFilePath importPath = some resolved ↔
        ((strStartsWith importPath "./" || strStartsWith importPath "../") = true
          ∧ resolved = resolveImport fs absoluteFilePath importPath
          ∧ fs.existsSync resolved = true
          ∧ (strEndsWith resolved ".ts" || strEndsWith resolved ".tsx") = true))
    ∧ (∀ (fs : FileSystem) (isDiscovered : String → Bool)
        (absoluteFilePath : String) (imports : List String) (resolved : String),
        resolved ∈ (scanImports fs isDiscovered absoluteFilePath imports).1 ↔
          ∃ importPath ∈ imports,
            processImport fs absoluteFilePath importPath = some resolved) := by
  constructor
  · intro fs file spec r
    unfold processImport
    by_cases h1 : (strStartsWith spec "./" || strStartsWith spec "../") = true
    · rw [if_pos h1]
      by_cases h2 : (fs.existsSync (resolveImport fs file spec) &&
          (strEndsWith (resolveImport fs file spec) ".ts" ||
            strEndsWith (resolveImport fs file spec) ".tsx")) = true
      · rw [if_pos h2]
        rcases Bool.and_eq_true _ _ |>.mp h2 with ⟨h2a, h2b⟩
        constructor
        · intro he
          cases he
          exact ⟨h1, rfl, h2a, h2b⟩
        · rintro ⟨-, rfl, -, -⟩
          rfl
      · rw [if_neg h2]
        constructor
        · intro he; cases he
        · rintro ⟨-, rfl, ha, hb⟩
          exact absurd (by rw [ha, hb]; rfl) h2
    · rw [if_neg h1]
      constructor
      · intro he; cases he
      · rintro ⟨hs, -, -, -⟩
        exact absurd hs h1
  · intro fs isD file imports r
    rw [scanImports, scanStep_fold_mem]
    simp

/-- Witness for C6: in the scenario file system, `./a` from the seed resolves
to `/proj/a.ts` and is recorded as an edge, and a bare-specifier import is
skipped. -/
theorem localImportEdgeCriterion_witness :
    processImport depth2Fs "/proj/seed.ts" "./a" = some "/proj/a.ts" ∧
      "/proj/a.ts" ∈ (scanImports depth2Fs (fun p => p == "/proj/seed.ts")
        "/proj/seed.ts" ["./a", "./b", "typescript"]).1 :=
  ⟨(localImportEdgeCriterion.1 depth2Fs "/proj/seed.ts" "./a" "/proj/a.ts").mpr
      (by refine ⟨by decide, by decide, by decide, by decide⟩),
    (localImportEdgeCriterion.2 depth2Fs (fun p => p == "/proj/seed.ts")
        "/proj/seed.ts" ["./a", "./b", "typescript"] "/proj/a.ts").mpr
      ⟨"./a", by decide, by decide⟩⟩

/-- **C7.** Before invoking the type-checking collaborator, when the output
path equals the input path, or the relative input and output paths are equal
ignoring extension, validation substitutes the fake output path
`source.zod.ts` in the input file's directory, and the worker payload's zod
schemas path is derived from that fake path. -/
theorem validationSubstitutesFakeOutputPath
    (c : Collaborators) (inputPath outputPath : String)
    (coreData : CoreGenerationResult) (opts : GenerateProps)
    (io : List InputOutputMapping)
    (h : outputPath = inputPath ∨
        areImportPathsEqualIgnoringExtension (stripCwd c.cwd inputPath)
          (stripCwd c.cwd outputPath) = true) :
    computeOutputForValidation c.cwd inputPath outputPath =
        joinPath (dirOf inputPath) "source.zod.ts"
    ∧ (validateGeneratedContent c inputPath outputPath coreData opts
          io).1.zodSchemasPath
        = stripCwd c.cwd (joinPath (dirOf inputPath) "source.zod.ts") := by
  have h1 : computeOutputForValidation c.cwd inputPath outputPath =
      joinPath (dirOf inputPath) "source.zod.ts" := by
    unfold computeOutputForValidation
    rw [if_pos h]
  refine ⟨h1, ?_⟩
  unfold validateGeneratedContent
  simp only [h1]
  split <;> rfl

/-- Witness for C7: input and output both `/proj/types.ts` make validation use
`/proj/source.zod.ts`. -/
theorem validationSubstitutesFakeOutputPath_witness :
    computeOutputForValidation "/proj" "/proj/types.ts" "/proj/types.ts" =
        joinPath (dirOf "/proj/types.ts") "source.zod.ts"
    ∧ (validateGeneratedContent plainCollaborators "/proj/types.ts"
          "/proj/types.ts" (trivialCoreResult false)
          { sourceText := "export type A = string;" } []).1.zodSchemasPath
        = stripCwd "/proj" (joinPath (dirOf "/proj/types.ts") "source.zod.ts") :=
  validationSubstitutesFakeOutputPath plainCollaborators "/proj/types.ts"
    "/proj/types.ts" (trivialCoreResult false)
    { sourceText := "export type A = string;" } [] (Or.inl rfl)

/-- In a run where every config's generation call resolves, the `--all`
`Promise.all` resolves with one report per config, each determined by that
config's own generation alone. -/
lemma runAllConfigsAux_resolved (c : Collaborators) (args : GenerateArgs)
    (cliFlags : Flags) (io : List InputOutputMapping) :
    ∀ (fileConfigs : List Config),
      (∀ config ∈ fileConfigs, ∃ r,
        TsToZod.generate c args (some config) cliFlags io = .ok r) →
      ∃ reports,
        TsToZod.runAllConfigsAux c args cliFlags io fileConfigs = .ok reports
        ∧ reports.length = fileConfigs.length
        ∧ ∀ (i : Nat) (config : Config), fileConfigs[i]? = some config →
            ∃ r, TsToZod.generate c args (some config) cliFlags io = .ok r
              ∧ reports[i]? = some (TsToZod.reportOf config r.1) := by
  intro fileConfigs
  induction fileConfigs with
  | nil =>
    intro _
    refine ⟨[], rfl, rfl, ?_⟩
    intro i config h
    simp at h
  | cons config rest ih =>
    intro hres
    rcases hres config (List.mem_cons_self _ _) with ⟨r, hr⟩
    rcases ih (fun cfg hmem => hres cfg (List.mem_cons_of_mem _ hmem)) with
      ⟨reports, hrep, hlen, hidx⟩
    refine ⟨TsToZod.reportOf config r.1 :: reports, ?_, by simp [hlen], ?_⟩
    · unfold TsToZod.runAllConfigsAux
      rw [hr, hrep]
    · intro i cfg hcfg
      cases i with
      | zero =>
        simp only [List.getElem?_cons_zero, Option.some.injEq] at hcfg
        cases hcfg
        exact ⟨r, hr, by simp⟩
      | succ i =>
        simp only [List.getElem?_cons_succ] at hcfg ⊢
        exact hidx i cfg hcfg

/-- **C8.** In a multi-config run (`--all`) in which every config's generation
call resolves (no collaborator exception, such as an unreadable input file,
propagates), the run produces one report per config and the report at each
position is determined by that config's own generation alone: a structurally
failed config's error becomes its report (emitted with `exit: false`) and does
not terminate the run or prevent any other config's generation from
completing. -/
theorem allConfigsReportedIndependently
    (c : Collaborators) (args : GenerateArgs) (cliFlags : Flags)
    (io : List InputOutputMapping) (xs ys : List Config) (cfg : Config)
    (hin : args.input = none) (hout : args.output = none)
    (hresolved : ∀ config ∈ xs ++ cfg :: ys, ∃ r,
      TsToZod.generate c args (some config) cliFlags io = .ok r) :
    ∃ reports,
      TsToZod.runAllConfigs c args cliFlags (xs ++ cfg :: ys) io = .ok reports
      ∧ reports.length = xs.length + 1 + ys.length
      ∧ (∀ (i : Nat) (config : Config), (xs ++ cfg :: ys)[i]? = some config →
          ∃ r, TsToZod.generate c args (some config) cliFlags io = .ok r
            ∧ reports[i]? = some (TsToZod.reportOf config r.1))
      ∧ ∃ r, TsToZod.generate c args (some cfg) cliFlags io = .ok r
          ∧ reports[xs.length]? = some (TsToZod.reportOf cfg r.1) := by
  rcases runAllConfigsAux_resolved c args cliFlags io (xs ++ cfg :: ys)
      hresolved with ⟨reports, hrep, hlen, hidx⟩
  refine ⟨reports, ?_, ?_, hidx, ?_⟩
  · unfold TsToZod.runAllConfigs
    rw [hin, hout]
    simp only [Option.isSome_none, Bool.or_self, Bool.false_eq_true, if_false]
    exact hrep
  · rw [hlen]
    simp only [List.length_append, List.length_cons]
    omega
  · refine hidx xs.length cfg ?_
    rw [List.getElem?_append_right (le_refl _)]
    simp

/-- Witness for C8: with a structurally failing first config (wrong extension)
and a succeeding second one, the run resolves, both reports are present, and
each position's report is its own config's outcome. -/
theorem allConfigsReportedIndependently_witness :
    ∃ reports,
      TsToZod.runAllConfigs plainCollaborators {} {}
          [{ input := "bad.txt" }, { input := "types.ts" }] [] = .ok reports
      ∧ reports.length =
          [({ input := "bad.txt" } : Config)].length + 1 + ([] : List Config).length
      ∧ (∀ (i : Nat) (config : Config),
          ([{ input := "bad.txt" }] ++ ({ input := "types.ts" } : Config) :: [])[i]?
            = some config →
          ∃ r, TsToZod.generate plainCollaborators {} (some config) {} [] = .ok r
            ∧ reports[i]? = some (TsToZod.reportOf config r.1))
      ∧ ∃ r, TsToZod.generate plainCollaborators {}
            (some { input := "types.ts" }) {} [] = .ok r
          ∧ reports[[({ input := "bad.txt" } : Config)].length]?
            = some (TsToZod.reportOf { input := "types.ts" } r.1) :=
  allConfigsReportedIndependently plainCollaborators {} {} []
    [{ input := "bad.txt" }] [] { input := "types.ts" } rfl rfl
    (by
      intro config hmem
      simp only [List.cons_append, List.nil_append, List.mem_cons,
        List.not_mem_nil, or_false] at hmem
      rcases hmem with rfl | rfl
      · exact ⟨_, rfl⟩
      · exact ⟨_, rfl⟩)

/-- **C10.** In nested generation every discovered file's per-file config sets
the output to the input's relative path with its `.ts`/`.tsx` extension
replaced by `.zod.ts`, propagates only `keepComments` (defaulted to `false`)
and `skipParseJSDoc`, leaves every other config field unset, and restricts the
dependency set to imports that are themselves members of the discovered set. -/
theorem nestedConfigConstruction
    (discoveredFileInfos : DiscMap) (cliFlags : Flags)
    (entry : DiscoveredConfigForNestedGeneration)
    (hmem : entry ∈ buildConfigsForGeneration discoveredFileInfos cliFlags) :
    ∃ e ∈ discoveredFileInfos,
      entry.id = e.1
      ∧ entry.config.input = e.2.relativePath
      ∧ entry.config.output = some (replaceTsSuffix e.2.relativePath)
      ∧ (strEndsWith e.2.relativePath ".tsx" = true →
          entry.config.output = some (e.2.relativePath.dropRight 4 ++ ".zod.ts"))
      ∧ (strEndsWith e.2.relativePath ".tsx" = false →
          strEndsWith e.2.relativePath ".ts" = true →
          entry.config.output = some (e.2.relativePath.dropRight 3 ++ ".zod.ts"))
      ∧ entry.config.keepComments = some (cliFlags.keepComments.getD false)
      ∧ entry.config.skipParseJSDoc = some cliFlags.skipParseJSDoc
      ∧ entry.config.name = none
      ∧ entry.config.inferredTypes = none
      ∧ (∀ d, d ∈ entry.dependencies ↔
          (d ∈ e.2.localImportAbsPaths
            ∧ containsKey discoveredFileInfos d = true)) := by
  rcases List.mem_map.mp hmem with ⟨e, he, rfl⟩
  refine ⟨e, he, rfl, rfl, rfl, ?_, ?_, rfl, rfl, rfl, rfl, ?_⟩
  · intro htsx
    simp [replaceTsSuffix, htsx]
  · intro htsx hts
    simp [replaceTsSuffix, htsx, hts]
  · intro d
    simp [List.mem_filter]

/-- A discovered set with one external (undiscovered) import, used by the C10
witness. -/
def nestedWitnessMap : DiscMap :=
  [("/proj/seed.ts", ⟨"seed.ts", ["/proj/a.ts", "/proj/external.ts"]⟩),
   ("/proj/a.ts", ⟨"a.tsx", []⟩)]

/-- Witness for C10: the seed's generated config rewrites the output extension
and drops the undiscovered import from its dependency set. -/
theorem nestedConfigConstruction_witness :
    ∃ e ∈ nestedWitnessMap,
      ("/proj/seed.ts" : String) = e.1
      ∧ ("seed.ts" : String) = e.2.relativePath
      ∧ (some "seed.zod.ts" = some (replaceTsSuffix e.2.relativePath))
      ∧ (strEndsWith e.2.relativePath ".tsx" = true →
          (some "seed.zod.ts" : Option String) =
            some (e.2.relativePath.dropRight 4 ++ ".zod.ts"))
      ∧ (strEndsWith e.2.relativePath ".tsx" = false →
          strEndsWith e.2.relativePath ".ts" = true →
          (some "seed.zod.ts" : Option String) =
            some (e.2.relativePath.dropRight 3 ++ ".zod.ts"))
      ∧ (some false : Option Bool) = some (({} : Flags).keepComments.getD false)
      ∧ (some false : Option Bool) = some (({} : Flags).skipParseJSDoc)
      ∧ (none : Option String) = none
      ∧ (none : Option String) = none
      ∧ (∀ d, d ∈ (["/proj/a.ts"] : List String) ↔
          (d ∈ e.2.localImportAbsPaths ∧ containsKey nestedWitnessMap d = true)) :=
  nestedConfigConstruction nestedWitnessMap {}
    { id := "/proj/seed.ts"
      config := { input := "seed.ts", output := some "seed.zod.ts"
                  keepComments := some false, skipParseJSDoc := some false }
      dependencies := ["/proj/a.ts"] }
    (by decide)

/-- **C2.** While ungenerated files remain, the scheduling batch consists of
exactly those remaining files all of whose dependencies have completed
generation; an empty batch with files remaining aborts with the fatal
"cannot determine order" diagnostic whose message lists every remaining
file's input, keeping the already-generated ids and batches untouched (no
rollback). -/
theorem schedulingBatchContentAndDeadlock
    (genResult : DiscoveredConfigForNestedGeneration → Option String)
    (fuel : Nat) (generatedConfigIds : List String)
    (generationQueue : List DiscoveredConfigForNestedGeneration)
    (accBatches : List (List DiscoveredConfigForNestedGeneration))
    (total : Nat) :
    (∀ item, item ∈ nextBatch generatedConfigIds generationQueue ↔
      (item ∈ generationQueue
        ∧ ∀ depId ∈ item.dependencies, depId ∈ generatedConfigIds))
    ∧ (generationQueue ≠ [] →
        nextBatch generatedConfigIds generationQueue = [] →
        runNestedGenerationLoopAux genResult fuel generatedConfigIds
            generationQueue accBatches total =
          .failure
            ("Could not determine generation order. Possible circular dependency or missing files among: "
              ++ String.intercalate ", "
                  (generationQueue.map (fun item => item.config.input))
              ++ ". Please check your imports.")
            generatedConfigIds accBatches) := by
  constructor
  · intro item
    unfold nextBatch ready
    rw [List.mem_filter]
    simp [List.all_eq_true, List.elem_iff]
  · intro hne hempty
    cases generationQueue with
    | nil => exact absurd rfl hne
    | cons q0 qrest =>
      unfold runNestedGenerationLoopAux
      simp only [hempty, List.isEmpty_nil, if_true]

/-- A file-level dependency cycle used by the C2 witness. -/
def cyclicQueue : List DiscoveredConfigForNestedGeneration :=
  [{ id := "/proj/x.ts", config := { input := "x.ts" },
     dependencies := ["/proj/y.ts"] },
   { id := "/proj/y.ts", config := { input := "y.ts" },
     dependencies := ["/proj/x.ts"] }]

/-- Witness for C2: the two-file cycle deadlocks immediately, and the fatal
message names both remaining files while nothing is rolled back. -/
theorem schedulingBatchContentAndDeadlock_witness :
    runNestedGenerationLoopAux (fun _ => none) cyclicQueue.length []
        cyclicQueue [] 0 =
      .failure
        ("Could not determine generation order. Possible circular dependency or missing files among: "
          ++ String.intercalate ", "
              (cyclicQueue.map (fun item => item.config.input))
          ++ ". Please check your imports.")
        [] [] :=
  (schedulingBatchContentAndDeadlock (fun _ => none) cyclicQueue.length []
      cyclicQueue [] 0).2 (by decide) (by decide)

/-- A successful batch appends exactly the ids of its items, in order. -/
lemma runBatch_ok (genResult : DiscoveredConfigForNestedGeneration → Option String) :
    ∀ (batch : List DiscoveredConfigForNestedGeneration) (gen gen' : List String),
      runBatch genResult batch gen = .ok gen' →
      gen' = gen ++ batch.map (fun b => b.id) := by
  intro batch
  induction batch with
  | nil =>
    intro gen gen' h
    cases h
    simp
  | cons item rest ih =>
    intro gen gen' h
    unfold runBatch at h
    cases hg : genResult item with
    | none =>
      rw [hg] at h
      rw [ih _ _ h]
      simp
    | some e =>
      rw [hg] at h
      cases h

/-- The batches of a schedule respect dependencies relative to the ids already
generated before them: each batch depends only on `gen` plus the ids of the
batches preceding it. -/
def batchesRespectDeps (gen : List String) :
    List (List DiscoveredConfigForNestedGeneration) → Prop
  | [] => True
  | b :: bs =>
    (∀ item ∈ b, ∀ depId ∈ item.dependencies, depId ∈ gen)
      ∧ batchesRespectDeps (gen ++ b.map (fun x => x.id)) bs

/-- Soundness of the scheduling loop: a successful run extends the accumulated
batches with batches that respect dependencies relative to the already
generated ids. -/
lemma runNestedLoopAux_sound
    (genResult : DiscoveredConfigForNestedGeneration → Option String) :
    ∀ (fuel : Nat) (gen : List String)
      (queue : List DiscoveredConfigForNestedGeneration)
      (acc : List (List DiscoveredConfigForNestedGeneration)) (total : Nat)
      (batches : List (List DiscoveredConfigForNestedGeneration))
      (fin : List String) (tot : Nat),
      runNestedGenerationLoopAux genResult fuel gen queue acc total =
        .success batches fin tot →
      ∃ newBatches, batches = acc ++ newBatches ∧ batchesRespectDeps gen newBatches := by
  intro fuel
  induction fuel with
  | zero =>
    intro gen queue acc total batches fin tot h
    cases queue with
    | nil =>
      unfold runNestedGenerationLoopAux at h
      simp only [] at h
      cases h
      exact ⟨[], by simp, trivial⟩
    | cons q0 qrest =>
      unfold runNestedGenerationLoopAux at h
      simp only [] at h
      by_cases hbe : (nextBatch gen (q0 :: qrest)).isEmpty = true
      · rw [if_pos hbe] at h
        cases h
      · rw [if_neg hbe] at h
        cases h
  | succ fuel ih =>
    intro gen queue acc total batches fin tot h
    cases queue with
    | nil =>
      unfold runNestedGenerationLoopAux at h
      simp only [] at h
      cases h
      exact ⟨[], by simp, trivial⟩
    | cons q0 qrest =>
      unfold runNestedGenerationLoopAux at h
      simp only [] at h
      by_cases hbe : (nextBatch gen (q0 :: qrest)).isEmpty = true
      · rw [if_pos hbe] at h
        cases h
      · rw [if_neg hbe] at h
        cases hrb : runBatch genResult (nextBatch gen (q0 :: qrest)) gen with
        | error e =>
          rw [hrb] at h
          cases h
        | ok gen' =>
          rw [hrb] at h
          rcases ih gen' _ _ _ _ _ _ h with ⟨nb, hnb, hresp⟩
          refine ⟨nextBatch gen (q0 :: qrest) :: nb, by simp [hnb], ?_, ?_⟩
          · intro item hitem depId hdep
            have hready := List.of_mem_filter hitem
            unfold ready at hready
            rw [List.all_eq_true] at hready
            exact List.mem_of_elem_eq_true (hready depId hdep)
          · rw [← runBatch_ok genResult _ _ _ hrb]
            exact hresp

/-- Index form of `batchesRespectDeps`: each item's dependencies come from the
initial set or from a strictly earlier batch. -/
lemma batchesRespectDeps_index :
    ∀ (bs : List (List DiscoveredConfigForNestedGeneration)) (gen : List String),
      batchesRespectDeps gen bs →
      ∀ (i : Nat) (hi : i < bs.length) (item : DiscoveredConfigForNestedGeneration),
        item ∈ bs.get ⟨i, hi⟩ →
        ∀ depId ∈ item.dependencies,
          depId ∈ gen ∨
            depId ∈ ((bs.take i).map (fun b => b.map (fun x => x.id))).flatten := by
  intro bs
  induction bs with
  | nil =>
    intro gen _ i hi
    exact absurd hi (by simp)
  | cons b rest ih =>
    intro gen h i hi item hitem depId hdep
    cases i with
    | zero =>
      exact Or.inl (h.1 item hitem depId hdep)
    | succ i =>
      rcases ih (gen ++ b.map fun x => x.id) h.2 i (by simpa using hi) item hitem
          depId hdep with hmem | hmem
      · rcases List.mem_append.mp hmem with hg | hb
        · exact Or.inl hg
        · refine Or.inr ?_
          simp only [List.take_succ_cons, List.map_cons, List.flatten]
          exact List.mem_append_left _ hb
      · refine Or.inr ?_
        simp only [List.take_succ_cons, List.map_cons, List.flatten]
        exact List.mem_append_right _ hmem

/-- **C3.** In a successful nested run, batches execute strictly in dependency
order: every dependency of every item of the `i`-th batch was generated in
some strictly earlier batch (the loop model only forms the next batch after
every generation of the current batch has completed successfully; items inside
one batch carry no mutual ordering). -/
theorem batchesExecuteInDependencyOrder
    (genResult : DiscoveredConfigForNestedGeneration → Option String)
    (allConfigsToGenerate : List DiscoveredConfigForNestedGeneration)
    (batches : List (List DiscoveredConfigForNestedGeneration))
    (fin : List String) (tot : Nat)
    (h : runNestedGenerationLoop genResult allConfigsToGenerate =
      .success batches fin tot)
    (i : Nat) (hi : i < batches.length)
    (item : DiscoveredConfigForNestedGeneration)
    (hitem : item ∈ batches.get ⟨i, hi⟩)
    (depId : String) (hdep : depId ∈ item.dependencies) :
    depId ∈ ((batches.take i).map (fun b => b.map (fun x => x.id))).flatten := by
  rcases runNestedLoopAux_sound genResult _ _ _ _ _ _ _ _ h with ⟨nb, hnb, hresp⟩
  rw [List.nil_append] at hnb
  subst hnb
  rcases batchesRespectDeps_index _ _ hresp i hi item hitem depId hdep with hmem | hmem
  · cases hmem
  · exact hmem

/-- Dependency chain used by the C3 witness: `a.ts` depends on `b.ts`. -/
def chainItemA : DiscoveredConfigForNestedGeneration :=
  { id := "/proj/a.ts", config := { input := "a.ts" },
    dependencies := ["/proj/b.ts"] }

/-- The dependency-free item of the C3 witness chain. -/
def chainItemB : DiscoveredConfigForNestedGeneration :=
  { id := "/proj/b.ts", config := { input := "b.ts" }, dependencies := [] }

/-- Witness for C3: in the two-batch schedule `[[b], [a]]`, `a`'s dependency
`/proj/b.ts` was generated in an earlier batch. -/
theorem batchesExecuteInDependencyOrder_witness :
    "/proj/b.ts" ∈
      ((([[chainItemB], [chainItemA]] :
          List (List DiscoveredConfigForNestedGeneration)).take 1).map
        (fun b => b.map (fun x => x.id))).flatten :=
  batchesExecuteInDependencyOrder (fun _ => none) [chainItemA, chainItemB]
    [[chainItemB], [chainItemA]] ["/proj/b.ts", "/proj/a.ts"] 2 (by decide)
    1 (by decide) chainItemA (by decide) "/proj/b.ts" (by decide)

/-- Key membership is preserved when the map grows by appending. -/
lemma containsKey_append_of (m ext : DiscMap) (q : String)
    (h : containsKey m q = true) : containsKey (m ++ ext) q = true := by
  unfold containsKey at h ⊢
  rw [List.any_append, h]
  rfl

/-- Contrapositive form: a key absent from an extended map was absent before. -/
lemma containsKey_append_left_false (m ext : DiscMap) (q : String)
    (h : containsKey (m ++ ext) q = false) : containsKey m q = false := by
  cases hm : containsKey m q
  · rfl
  · rw [containsKey_append_of m ext q hm] at h
    cases h

/-- A freshly appended entry is in the map. -/
lemma containsKey_append_self (m : DiscMap) (p : String) (info : FileInfo) :
    containsKey (m ++ [(p, info)]) p = true := by
  unfold containsKey
  rw [List.any_append]
  simp

/-- `readPaths` distributes over event-trace concatenation. -/
lemma readPaths_append (a b : List DiscEvent) :
    readPaths (a ++ b) = readPaths a ++ readPaths b := by
  unfold readPaths
  exact List.filterMap_append a b _

/-- A path is among the read paths exactly when its read event is in the
trace. -/
lemma mem_readPaths (evs : List DiscEvent) (q : String) :
    q ∈ readPaths evs ↔ DiscEvent.readFile q ∈ evs := by
  unfold readPaths
  rw [List.mem_filterMap]
  constructor
  · rintro ⟨e, he, hq⟩
    cases e with
    | readFile r =>
      cases hq
      exact he
    | warnDepth r => cases hq
    | warnUnreadable r => cases hq
  · intro h
    exact ⟨DiscEvent.readFile q, h, rfl⟩

/-- Invariant of one discovery call on a pre-map `m`: the map only grows by
appending, every successfully read path was unvisited before the call and is
recorded afterwards, and no path is read twice. -/
def DiscInv (m : DiscMap) (res : DiscMap × List DiscEvent) : Prop :=
  (∃ ext, res.1 = m ++ ext)
  ∧ (∀ q, DiscEvent.readFile q ∈ res.2 →
      containsKey m q = false ∧ containsKey res.1 q = true)
  ∧ (readPaths res.2).Nodup

/-- The recursion step over the queued imports, as folded inside
`performFileDiscoveryAux`. -/
def discoveryStep (fs : FileSystem) (cwd : String) (maxDepth fuel d : Nat)
    (st : DiscMap × List DiscEvent) (p : String) : DiscMap × List DiscEvent :=
  let next := performFileDiscoveryAux fs cwd maxDepth fuel p d st.1
  (next.1, st.2 ++ next.2)

/-- Fold form of the discovery invariant: folding discovery calls over a list
of paths, starting from a state whose already-read paths are all recorded and
pairwise distinct, keeps the map growing, keeps every read recorded, reads
only unvisited paths, and never reads a path twice. -/
lemma discoveryFold_inv (fs : FileSystem) (cwd : String) (maxDepth fuel d : Nat)
    (IH : ∀ (p : String) (m : DiscMap),
      DiscInv m (performFileDiscoveryAux fs cwd maxDepth fuel p d m)) :
    ∀ (paths : List String) (m : DiscMap) (evs : List DiscEvent),
      (∀ q, DiscEvent.readFile q ∈ evs → containsKey m q = true) →
      (readPaths evs).Nodup →
      (∃ ext,
          (paths.foldl (discoveryStep fs cwd maxDepth fuel d) (m, evs)).1 = m ++ ext)
      ∧ (∀ q, DiscEvent.readFile q ∈
            (paths.foldl (discoveryStep fs cwd maxDepth fuel d) (m, evs)).2 →
          ((DiscEvent.readFile q ∈ evs ∨ containsKey m q = false)
            ∧ containsKey
                (paths.foldl (discoveryStep fs cwd maxDepth fuel d) (m, evs)).1 q
              = true))
      ∧ (readPaths
          (paths.foldl (discoveryStep fs cwd maxDepth fuel d) (m, evs)).2).Nodup := by
  intro paths
  induction paths with
  | nil =>
    intro m evs hpre hnodup
    refine ⟨⟨[], by simp⟩, ?_, hnodup⟩
    intro q hq
    exact ⟨Or.inl hq, hpre q hq⟩
  | cons p ps ih =>
    intro m evs hpre hnodup
    rw [List.foldl_cons]
    rcases IH p m with ⟨⟨ext1, hext1⟩, hreads1, hnodup1⟩
    have hpre2 : ∀ q, DiscEvent.readFile q ∈
        evs ++ (performFileDiscoveryAux fs cwd maxDepth fuel p d m).2 →
        containsKey (performFileDiscoveryAux fs cwd maxDepth fuel p d m).1 q = true := by
      intro q hq
      rcases List.mem_append.mp hq with hq | hq
      · rw [hext1]
        exact containsKey_append_of _ _ _ (hpre q hq)
      · exact (hreads1 q hq).2
    have hnodup2 : (readPaths
        (evs ++ (performFileDiscoveryAux fs cwd maxDepth fuel p d m).2)).Nodup := by
      rw [readPaths_append]
      refine List.Nodup.append hnodup hnodup1 ?_
      intro q hq1 hq2
      rw [mem_readPaths] at hq1 hq2
      have hfalse := (hreads1 q hq2).1
      rw [hpre q hq1] at hfalse
      cases hfalse
    rcases ih (performFileDiscoveryAux fs cwd maxDepth fuel p d m).1
        (evs ++ (performFileDiscoveryAux fs cwd maxDepth fuel p d m).2)
        hpre2 hnodup2 with ⟨⟨ext2, hext2⟩, hreads2, hnodup3⟩
    refine ⟨⟨ext1 ++ ext2, ?_⟩, ?_, ?_⟩
    · rw [show (discoveryStep fs cwd maxDepth fuel d (m, evs) p) =
        ((performFileDiscoveryAux fs cwd maxDepth fuel p d m).1,
          evs ++ (performFileDiscoveryAux fs cwd maxDepth fuel p d m).2) from rfl]
      rw [hext2, hext1, List.append_assoc]
    · intro q hq
      rw [show (discoveryStep fs cwd maxDepth fuel d (m, evs) p) =
        ((performFileDiscoveryAux fs cwd maxDepth fuel p d m).1,
          evs ++ (performFileDiscoveryAux fs cwd maxDepth fuel p d m).2) from rfl] at hq ⊢
      rcases hreads2 q hq with ⟨hcase, hck⟩
      refine ⟨?_, hck⟩
      rcases hcase with hmem | hfalse
      · rcases List.mem_append.mp hmem with hmem | hmem
        · exact Or.inl hmem
        · exact Or.inr (hreads1 q hmem).1
      · refine Or.inr ?_
        rw [hext1] at hfalse
        exact containsKey_append_left_false _ _ _ hfalse
    · rw [show (discoveryStep fs cwd maxDepth fuel d (m, evs) p) =
        ((performFileDiscoveryAux fs cwd maxDepth fuel p d m).1,
          evs ++ (performFileDiscoveryAux fs cwd maxDepth fuel p d m).2) from rfl]
      exact hnodup3

/-- The discovery invariant holds for every call: induction on the structural
depth budget, with `discoveryFold_inv` handling the recursion over queued
imports. -/
lemma discoveryAux_inv (fs : FileSystem) (cwd : String) (maxDepth : Nat) :
    ∀ (fuel : Nat) (p : String) (d : Nat) (m : DiscMap),
      DiscInv m (performFileDiscoveryAux fs cwd maxDepth fuel p d m) := by
  intro fuel
  induction fuel with
  | zero =>
    intro p d m
    unfold performFileDiscoveryAux
    by_cases hd : d > maxDepth
    · rw [if_pos hd]
      refine ⟨⟨[], by simp⟩, ?_, by simp [readPaths]⟩
      intro q hq
      simp at hq
    · rw [if_neg hd]
      by_cases hc : containsKey m p = true
      · rw [if_pos hc]
        refine ⟨⟨[], by simp⟩, ?_, by simp [readPaths]⟩
        intro q hq
        simp at hq
      · rw [if_neg hc]
        refine ⟨⟨[], by simp⟩, ?_, by simp [readPaths]⟩
        intro q hq
        simp at hq
  | succ fuel ih =>
    intro p d m
    unfold performFileDiscoveryAux
    by_cases hd : d > maxDepth
    · rw [if_pos hd]
      refine ⟨⟨[], by simp⟩, ?_, by simp [readPaths]⟩
      intro q hq
      simp at hq
    · rw [if_neg hd]
      by_cases hc : containsKey m p = true
      · rw [if_pos hc]
        refine ⟨⟨[], by simp⟩, ?_, by simp [readPaths]⟩
        intro q hq
        simp at hq
      · rw [if_neg hc]
        cases hr : fs.read p with
        | none =>
          refine ⟨⟨[], by simp⟩, ?_, by simp [readPaths]⟩
          intro q hq
          simp at hq
        | some file =>
          show DiscInv m
            ((uniqList (scanImports fs (fun q => q == p || containsKey m q) p
                file.imports).2).foldl
              (discoveryStep fs cwd maxDepth fuel (d + 1))
              (m ++ [(p,
                { relativePath := relPath cwd p
                  localImportAbsPaths := (scanImports fs
                    (fun q => q == p || containsKey m q) p file.imports).1 })],
               [DiscEvent.readFile p]))
          have h1 : ∀ q, DiscEvent.readFile q ∈ [DiscEvent.readFile p] →
              containsKey (m ++ [(p,
                { relativePath := relPath cwd p
                  localImportAbsPaths := (scanImports fs
                    (fun q => q == p || containsKey m q) p file.imports).1 })]) q
                = true := by
            intro q hq
            have hqp : q = p := by simpa using hq
            rw [hqp]
            exact containsKey_append_self m p _
          have h2 : (readPaths [DiscEvent.readFile p]).Nodup := by
            simp [readPaths]
          rcases discoveryFold_inv fs cwd maxDepth fuel (d + 1)
              (fun p' m' => ih p' (d + 1) m')
              (uniqList (scanImports fs (fun q => q == p || containsKey m q) p
                file.imports).2)
              (m ++ [(p,
                { relativePath := relPath cwd p
                  localImportAbsPaths := (scanImports fs
                    (fun q => q == p || containsKey m q) p file.imports).1 })])
              [DiscEvent.readFile p] h1 h2 with ⟨⟨ext, hext⟩, hreads, hnodup⟩
          refine ⟨⟨(p,
              { relativePath := relPath cwd p
                localImportAbsPaths := (scanImports fs
                  (fun q => q == p || containsKey m q) p file.imports).1 }) :: ext,
              by rw [hext]; simp⟩, ?_, hnodup⟩
          intro q hq
          rcases hreads q hq with ⟨hcase, hck⟩
          refine ⟨?_, hck⟩
          rcases hcase with hmem | hfalse
          · have hqp : q = p := by simpa using hmem
            rw [hqp]
            exact Bool.eq_false_iff.mpr hc
          · exact containsKey_append_left_false _ _ _ hfalse

/-- **C4.** Every file is recorded in the discovered set exactly once: a
discovery call on an already-recorded absolute path returns with the map
unchanged and without reading any file, and — because a file is added to the
map before its imports are explored — the full traversal (total by
construction, even on import cycles) reads each file at most once: its
successful-read trace has no duplicates. -/
theorem discoveryVisitsEachFileOnce (fs : FileSystem) (cwd absoluteFilePath : String)
    (m : DiscMap) (maxDepth currentDepth : Nat) :
    (containsKey m absoluteFilePath = true →
      (performFileDiscovery fs cwd absoluteFilePath m maxDepth currentDepth).1 = m
      ∧ readPaths
          (performFileDiscovery fs cwd absoluteFilePath m maxDepth currentDepth).2
        = [])
    ∧ (readPaths
        (performFileDiscovery fs cwd absoluteFilePath m maxDepth currentDepth).2).Nodup := by
  constructor
  · intro hc
    unfold performFileDiscovery performFileDiscoveryAux
    by_cases hd : currentDepth > maxDepth
    · rw [if_pos hd]
      exact ⟨rfl, rfl⟩
    · rw [if_neg hd, if_pos hc]
      exact ⟨rfl, rfl⟩
  · exact (discoveryAux_inv fs cwd maxDepth _ absoluteFilePath currentDepth m).2.2

/-- A two-file import cycle, used by the C4 witness. -/
def cycleFs : FileSystem :=
  ⟨[("/proj/x.ts", ⟨["./y"]⟩), ("/proj/y.ts", ⟨["./x"]⟩)]⟩

/-- Witness for C4: revisiting the recorded `/proj/x.ts` is a no-op, and the
traversal of the two-file cycle has duplicate-free reads. -/
theorem discoveryVisitsEachFileOnce_witness :
    ((performFileDiscovery cycleFs "/proj" "/proj/x.ts"
        [("/proj/x.ts", { relativePath := "x.ts", localImportAbsPaths := [] })]
        5 0).1
      = [("/proj/x.ts", { relativePath := "x.ts", localImportAbsPaths := [] })]
      ∧ readPaths (performFileDiscovery cycleFs "/proj" "/proj/x.ts"
          [("/proj/x.ts", { relativePath := "x.ts", localImportAbsPaths := [] })]
          5 0).2 = [])
    ∧ (readPaths (performFileDiscovery cycleFs "/proj" "/proj/x.ts" [] 5 0).2).Nodup :=
  ⟨(discoveryVisitsEachFileOnce cycleFs "/proj" "/proj/x.ts"
      [("/proj/x.ts", { relativePath := "x.ts", localImportAbsPaths := [] })]
      5 0).1 (by decide),
   (discoveryVisitsEachFileOnce cycleFs "/proj" "/proj/x.ts" [] 5 0).2⟩

end TsToZodSpec
